import Mathlib

/-!
# Verification of the webLLm chat controller (`src/src/App.jsx`)

A shallow embedding of the React chat component in `src/src/App.jsx`
(`src/unnamed/part_000` is an almost identical copy with the same logic).
React `useState` fields become fields of an explicit `AppState`; the
`abortRef` of `AbortController` objects is modelled by a pool `ctls` of
aborted-flags indexed by allocation order, with `abortRef` the index of the
current controller.  The asynchronous streaming loop of `handleSend` is
modelled by a pure function taking the list of chunks the engine delivered
before the stream ended and a `StreamEnd` describing how it ended
(natural completion, `AbortError`, or another error).
-/

/-- Message roles, as the string literals `'system'`, `'user'`, `'assistant'`
used in `App.jsx`. -/
inductive Role where
  | system
  | user
  | assistant
deriving DecidableEq, Repr

/-- A transcript entry `{ role, content }` (App.jsx data model). -/
structure Msg where
  role : Role
  content : String
deriving DecidableEq, Repr

/-- The engine handle.  `chatCompletionsCreate` records whether the chained
property `engine.chat.completions.create` is present (the capability probed by
`handleSend`'s second guard). -/
structure Engine where
  chatCompletionsCreate : Bool
deriving DecidableEq, Repr

/-- The component state: the `useState` fields of `App.jsx` plus the
`abortRef` ref.  `ctls` is the pool of allocated `AbortController`s
(each entry is its aborted flag, `true` once `abort()` was called on it);
`abortRef` is the index of the controller currently held by the ref, `none`
when the ref is `null`. -/
structure AppState where
  messages : List Msg
  input : String
  loading : Bool
  engine : Option Engine
  abortRef : Option Nat
  ctls : List Bool
  initStatus : String
  modelLoaded : Bool
deriving DecidableEq, Repr

/-- The initial transcript: `useState([{ role: 'system', content: ... }])`
(App.jsx line 53). -/
def initialMessages : List Msg :=
  [{ role := Role.system, content := "You are a helpful AI assistant." }]

/-- The initial component state (the `useState` initial values of App.jsx). -/
def initialAppState : AppState :=
  { messages := initialMessages
    input := ""
    loading := false
    engine := none
    abortRef := none
    ctls := []
    initStatus := "Initializing..."
    modelLoaded := false }

/-- An engine progress report `{ text, progress }` as received by
`initProgressCallback`.  `progress` is `none` when the field is absent. -/
structure Report where
  text : String
  progress : Option ℚ
deriving DecidableEq, Repr

/-- One run of `initProgressCallback` (App.jsx lines 22-29):
`setInitStatus(report.text || 'Loading...')` and
`if (report.progress === 1) setModelLoaded(true)`.  JS falsiness of the
text is modelled by the empty string. -/
def initProgressStep (s : AppState) (r : Report) : AppState :=
  { s with
    initStatus := if r.text = "" then "Loading..." else r.text
    modelLoaded := if r.progress = some 1 then true else s.modelLoaded }

/-- Applying a whole sequence of progress reports in arrival order. -/
def runInit (s : AppState) (rs : List Report) : AppState :=
  rs.foldl initProgressStep s

/-- The assistant message appended on the capability-missing path
(App.jsx line 65). -/
def chatUnavailableMsg : Msg :=
  { role := Role.assistant, content := "Chat API not available in this build." }

/-- `'Error: ' + (err.message || 'Unknown error')` (App.jsx line 106). -/
def errorContent (m : String) : String :=
  "Error: " ++ (if m = "" then "Unknown error" else m)

/-- JS `String.prototype.trim`: drop whitespace characters from both ends.
(Defined over the character list so concrete instances reduce inside the
kernel.) -/
def trimString (s : String) : String :=
  String.mk (((s.data.dropWhile Char.isWhitespace).reverse.dropWhile
    Char.isWhitespace).reverse)

/-- `!engine?.chat?.completions?.create` probe (App.jsx line 63). -/
def hasCreate (s : AppState) : Bool :=
  match s.engine with
  | some e => e.chatCompletionsCreate
  | none => false

/-- `prev.length > 0 && prev[prev.length - 1].role === 'assistant'`
(App.jsx line 93). -/
def lastIsAssistant (ms : List Msg) : Bool :=
  match ms.getLast? with
  | some m => m.role = Role.assistant
  | none => false

/-- The `messages.filter(...)` predicate of App.jsx line 77: keep `m` when
`m.role !== 'assistant' || m.content.trim() !== 'Typing...'`. -/
def keepInRequest (m : Msg) : Bool :=
  !(m.role = Role.assistant) || !(trimString m.content = "Typing...")

/-- `currentMessages` of App.jsx line 77: the filtered history (stale
`messages` closure, i.e. the transcript before the user message was
appended) followed by `userMsg`. -/
def currentMessagesOf (history : List Msg) (userMsg : Msg) : List Msg :=
  history.filter keepInRequest ++ [userMsg]

/-- Spec-side concept: a placeholder "typing" sentinel entry — an assistant
entry whose trimmed content is `Typing...`. -/
def isTypingSentinel (m : Msg) : Bool :=
  m.role = Role.assistant && trimString m.content = "Typing..."

/-- One iteration of the streaming `for await` body (App.jsx lines 87-98),
acting on the pair (accumulator, transcript).  The chunk is modelled by
`Option String`: `none` when `chunk?.choices?.[0]?.delta?.content` is
absent; `|| ''` turns that into the empty piece. -/
def streamStep (p : String × List Msg) (c : Option String) : String × List Msg :=
  let piece := c.getD ""
  let acc := if piece = "" then p.1 else p.1 ++ piece
  let ms :=
    if lastIsAssistant p.2 then
      p.2.dropLast ++ [{ role := Role.assistant, content := acc }]
    else
      p.2 ++ [{ role := Role.assistant, content := if acc = "" then " " else acc }]
  (acc, ms)

/-- Running the whole streaming loop over the chunks the engine delivered. -/
def runStream (start : String × List Msg) (chunks : List (Option String)) :
    String × List Msg :=
  chunks.foldl streamStep start

/-- The concatenation of the pieces carried by a chunk sequence, in arrival
order. -/
def concatPieces : List (Option String) → String
  | [] => ""
  | c :: cs => c.getD "" ++ concatPieces cs

/-- How the stream iteration of one `handleSend` call ended: natural
completion, an `AbortError` (cancellation), or another error carrying
`err.message` (empty string when the message is falsy). -/
inductive StreamEnd where
  | success
  | abortError
  | failure (msg : String)
deriving DecidableEq, Repr

/-- The state changes of App.jsx lines 68-75, performed before the request
is issued: capture `userMsg` from the input, `setInput('')`,
`setLoading(true)`, `abortRef.current?.abort()`,
`abortRef.current = new AbortController()`, and
`setMessages(prev => [...prev, userMsg])`. -/
def startGeneration (s : AppState) : AppState :=
  let s1 := { s with input := "", loading := true }
  let s2 :=
    match s1.abortRef with
    | some i => { s1 with ctls := s1.ctls.set i true }
    | none => s1
  let s3 := { s2 with ctls := s2.ctls ++ [false], abortRef := some s2.ctls.length }
  { s3 with messages := s3.messages ++ [{ role := Role.user, content := s.input }] }

/-- `catch (err)` of App.jsx lines 101-107: an `AbortError` is silent, any
other error appends one assistant error message. -/
def applyOutcome (s : AppState) : StreamEnd → AppState
  | StreamEnd.success => s
  | StreamEnd.abortError => s
  | StreamEnd.failure m =>
      { s with messages := s.messages ++ [{ role := Role.assistant, content := errorContent m }] }

/-- The observables of one `handleSend` call: the final component state, the
`messages` argument passed to `chat.completions.create` (`none` when no
stream call was issued), and the component state at the moment the request
was issued (`none` likewise). -/
structure SendTrace where
  final : AppState
  request : Option (List Msg)
  stateAtIssue : Option AppState
deriving DecidableEq, Repr

/-- `handleSend` (App.jsx lines 61-111) as a pure function of the state, the
chunks the engine delivered, and how the stream ended.
Guard 1: `if (!input.trim() || !engine || loading) return`.
Guard 2: the capability probe, appending `chatUnavailableMsg`.
Then the generation start, the request built from the stale `messages`
closure, the streaming loop from an empty accumulator, the catch clause,
and the `finally { setLoading(false) }`. -/
def handleSend (s : AppState) (chunks : List (Option String)) (outcome : StreamEnd) :
    SendTrace :=
  if trimString s.input = "" || s.engine.isNone || s.loading then
    { final := s, request := none, stateAtIssue := none }
  else if !hasCreate s then
    { final := { s with messages := s.messages ++ [chatUnavailableMsg] }
      request := none, stateAtIssue := none }
  else
    let sG := startGeneration s
    let req := currentMessagesOf s.messages { role := Role.user, content := s.input }
    let r := runStream ("", sG.messages) chunks
    let sE := applyOutcome { sG with messages := r.2 } outcome
    { final := { sE with loading := false }
      request := some req
      stateAtIssue := some sG }

/-- `handleCancel` (App.jsx lines 113-119): when the ref holds a controller,
abort it, null the ref, `setLoading(false)`; otherwise do nothing. -/
def handleCancel (s : AppState) : AppState :=
  match s.abortRef with
  | some i => { s with ctls := s.ctls.set i true, abortRef := none, loading := false }
  | none => s

/-- The invariant of the transcript: it starts with a system message and no
other entry has the system role. -/
def oneLeadingSystem (ms : List Msg) : Prop :=
  ∃ c rest, ms = { role := Role.system, content := c } :: rest ∧
    ∀ m ∈ rest, m.role ≠ Role.system

/-- The transcript states reachable through the operations of `App.jsx`:
the initial transcript, the user-message append of `handleSend`, the
streaming updater, the error append of the catch clause, and the
capability-missing append. -/
inductive ReachableTranscript : List Msg → Prop
  | start : ReachableTranscript initialMessages
  | userAppend (ms : List Msg) (t : String) :
      ReachableTranscript ms →
      ReachableTranscript (ms ++ [{ role := Role.user, content := t }])
  | deltaUpdate (ms : List Msg) (acc : String) (c : Option String) :
      ReachableTranscript ms →
      ReachableTranscript (streamStep (acc, ms) c).2
  | errorAppend (ms : List Msg) (m : String) :
      ReachableTranscript ms →
      ReachableTranscript (ms ++ [{ role := Role.assistant, content := errorContent m }])
  | unavailableAppend (ms : List Msg) :
      ReachableTranscript ms →
      ReachableTranscript (ms ++ [chatUnavailableMsg])

/-- An engine exposing `chat.completions.create`. -/
def capEngine : Engine := { chatCompletionsCreate := true }

/-- An engine lacking `chat.completions.create`. -/
def noCapEngine : Engine := { chatCompletionsCreate := false }

/-- A Ready, Idle state with pending input `"Hello"`. -/
def readyIdleState : AppState :=
  { initialAppState with
    engine := some capEngine, modelLoaded := true, input := "Hello" }

/-- A state in the middle of a generation: `loading` is true and the ref
holds a live, not yet aborted controller. -/
def generatingState : AppState :=
  { initialAppState with
    engine := some capEngine, modelLoaded := true, input := "Hi again"
    loading := true, abortRef := some 0, ctls := [false]
    messages := initialMessages ++
      [{ role := Role.user, content := "Hello" },
       { role := Role.assistant, content := "Hi" }] }

/-- An Idle state that still holds a stale prior controller in the ref. -/
def staleCtlState : AppState :=
  { initialAppState with
    engine := some capEngine, modelLoaded := true, input := "Again"
    loading := false, abortRef := some 0, ctls := [false]
    messages := initialMessages ++
      [{ role := Role.user, content := "Hello" },
       { role := Role.assistant, content := "Hi" }] }

/-- A Ready, Idle state whose engine lacks the chat capability. -/
def noCapState : AppState :=
  { initialAppState with
    engine := some noCapEngine, modelLoaded := true, input := "Hello" }

/-- The progress reports of the initialization scenario:
fractions 0, 1/2, 1. -/
def demoReports : List Report :=
  [{ text := "fetching params", progress := some 0 },
   { text := "halfway", progress := some (1/2) },
   { text := "finished loading", progress := some 1 }]

/-- Abbreviation for an assistant entry. -/
def assistantMsg (t : String) : Msg := { role := Role.assistant, content := t }

/-- Abbreviation for a user entry. -/
def userMsgOf (t : String) : Msg := { role := Role.user, content := t }

/-! ## Helper lemmas -/

theorem acc_append_piece (a p : String) : (if p = "" then a else a ++ p) = a ++ p := by
  split
  · rename_i h; rw [h, String.append_empty]
  · rfl

theorem lastIsAssistant_concat (ms : List Msg) (m : Msg) :
    lastIsAssistant (ms ++ [m]) = decide (m.role = Role.assistant) := by
  simp [lastIsAssistant, List.getLast?_concat]

theorem engine_isNone_of_hasCreate (s : AppState) (h : hasCreate s = true) :
    s.engine.isNone = false := by
  cases hE : s.engine <;> simp [hasCreate, hE] at h ⊢

theorem streamStep_replace (acc t : String) (ms : List Msg) (c : Option String) :
    streamStep (acc, ms ++ [assistantMsg t]) c
      = (acc ++ c.getD "", ms ++ [assistantMsg (acc ++ c.getD "")]) := by
  simp [streamStep, assistantMsg, lastIsAssistant_concat, acc_append_piece,
    List.dropLast_concat]

theorem runStream_assistant_last (cs : List (Option String)) (acc t : String)
    (ms : List Msg) (hcs : cs ≠ []) :
    runStream (acc, ms ++ [assistantMsg t]) cs
      = (acc ++ concatPieces cs, ms ++ [assistantMsg (acc ++ concatPieces cs)]) := by
  induction cs generalizing acc t with
  | nil => exact absurd rfl hcs
  | cons c cs ih =>
    have hstep : runStream (acc, ms ++ [assistantMsg t]) (c :: cs)
        = runStream (acc ++ c.getD "", ms ++ [assistantMsg (acc ++ c.getD "")]) cs := by
      simp [runStream, streamStep_replace]
    rw [hstep]
    by_cases hnil : cs = []
    · subst hnil
      simp [runStream, concatPieces, String.append_empty]
    · rw [ih (acc ++ c.getD "") (acc ++ c.getD "") hnil]
      simp [concatPieces, String.append_assoc]

theorem runStream_fresh (ms : List Msg) (cs : List (Option String))
    (h : lastIsAssistant ms = false) (h1 : cs ≠ []) (h2 : concatPieces cs ≠ "") :
    runStream ("", ms) cs
      = (concatPieces cs, ms ++ [assistantMsg (concatPieces cs)]) := by
  cases cs with
  | nil => exact absurd rfl h1
  | cons c cs =>
    have hstep : streamStep ("", ms) c
        = (c.getD "",
           ms ++ [assistantMsg (if c.getD "" = "" then " " else c.getD "")]) := by
      by_cases hc : c.getD "" = "" <;>
        simp [streamStep, assistantMsg, h, hc, String.empty_append]
    by_cases hnil : cs = []
    · subst hnil
      have hp : c.getD "" ≠ "" := by
        simpa [concatPieces, String.append_empty] using h2
      simp [runStream, hstep, hp, concatPieces, String.append_empty]
    · have hrun : runStream ("", ms) (c :: cs)
          = runStream (c.getD "",
              ms ++ [assistantMsg (if c.getD "" = "" then " " else c.getD "")]) cs := by
        simp [runStream, hstep]
      rw [hrun, runStream_assistant_last cs (c.getD "")
        (if c.getD "" = "" then " " else c.getD "") ms hnil]
      simp [concatPieces]

theorem startGeneration_messages (s : AppState) :
    (startGeneration s).messages = s.messages ++ [userMsgOf s.input] := by
  cases h : s.abortRef <;> simp [startGeneration, userMsgOf, h]

theorem startGeneration_ctls (s : AppState) :
    (startGeneration s).ctls
      = (match s.abortRef with
         | some i => s.ctls.set i true
         | none => s.ctls) ++ [false] := by
  cases h : s.abortRef <;> simp [startGeneration, h]

theorem startGeneration_abortRef (s : AppState) :
    (startGeneration s).abortRef = some s.ctls.length := by
  cases h : s.abortRef <;> simp [startGeneration, h, List.length_set]

theorem startGeneration_lastIsAssistant (s : AppState) :
    lastIsAssistant (startGeneration s).messages = false := by
  rw [startGeneration_messages]
  simp [lastIsAssistant_concat, userMsgOf]

theorem applyOutcome_messages_success (s : AppState) :
    applyOutcome s StreamEnd.success = s := rfl

theorem applyOutcome_ctls (s : AppState) (o : StreamEnd) :
    (applyOutcome s o).ctls = s.ctls := by
  cases o <;> rfl

theorem applyOutcome_abortRef (s : AppState) (o : StreamEnd) :
    (applyOutcome s o).abortRef = s.abortRef := by
  cases o <;> rfl

theorem handleSend_rejected (s : AppState) (chunks : List (Option String))
    (outcome : StreamEnd) (hl : s.loading = true) :
    handleSend s chunks outcome
      = { final := s, request := none, stateAtIssue := none } := by
  simp [handleSend, hl]

theorem handleSend_noCap (s : AppState) (chunks : List (Option String))
    (outcome : StreamEnd) (h1 : trimString s.input ≠ "") (hl : s.loading = false)
    (hE : s.engine.isSome = true) (he : hasCreate s = false) :
    handleSend s chunks outcome
      = { final := { s with messages := s.messages ++ [chatUnavailableMsg] }
          request := none, stateAtIssue := none } := by
  have hN : s.engine.isNone = false := by
    cases hx : s.engine <;> simp [hx] at hE ⊢
  simp [handleSend, h1, hl, hN, he]

theorem handleSend_run (s : AppState) (chunks : List (Option String))
    (outcome : StreamEnd) (h1 : trimString s.input ≠ "") (hl : s.loading = false)
    (he : hasCreate s = true) :
    handleSend s chunks outcome
      = { final :=
            { applyOutcome
                { startGeneration s with
                  messages := (runStream ("", (startGeneration s).messages) chunks).2 }
                outcome with
              loading := false }
          request := some (currentMessagesOf s.messages (userMsgOf s.input))
          stateAtIssue := some (startGeneration s) } := by
  have hN : s.engine.isNone = false := engine_isNone_of_hasCreate s he
  simp [handleSend, h1, hl, hN, he, userMsgOf]

theorem runInit_loaded (rs : List Report) (s : AppState) :
    (runInit s rs).modelLoaded
      = (s.modelLoaded || rs.any fun r => r.progress = some 1) := by
  induction rs generalizing s with
  | nil => simp [runInit]
  | cons r rs ih =>
    have hfold : runInit s (r :: rs) = runInit (initProgressStep s r) rs := rfl
    rw [hfold, ih]
    by_cases h : r.progress = some 1 <;>
      simp [initProgressStep, h, Bool.or_assoc]

theorem runInit_status (rs : List Report) (s : AppState) (r : Report)
    (h : rs.getLast? = some r) :
    (runInit s rs).initStatus = (if r.text = "" then "Loading..." else r.text) := by
  induction rs generalizing s with
  | nil => simp at h
  | cons x t ih =>
    cases t with
    | nil =>
      simp at h
      subst h
      simp [runInit, initProgressStep]
    | cons y t2 =>
      have h2 : (y :: t2).getLast? = some r := by
        rw [List.getLast?_cons_cons] at h
        exact h
      exact ih (initProgressStep s x) h2

theorem send_fresh_messages (s : AppState) (chunks : List (Option String))
    (h1 : trimString s.input ≠ "") (hl : s.loading = false) (he : hasCreate s = true)
    (hd : chunks ≠ []) (hne : concatPieces chunks ≠ "") :
    (handleSend s chunks StreamEnd.success).final.messages
      = s.messages ++ [userMsgOf s.input, assistantMsg (concatPieces chunks)] := by
  rw [handleSend_run s chunks StreamEnd.success h1 hl he]
  have hfresh := runStream_fresh (startGeneration s).messages chunks
    (startGeneration_lastIsAssistant s) hd hne
  rw [startGeneration_messages] at hfresh
  simp [applyOutcome, startGeneration_messages, hfresh]

/-! ## Claim theorems -/

/-- Claim C2: during a single generation, the streamed deltas are
concatenated in arrival order into exactly one trailing assistant
transcript entry — the final transcript is the prior one, plus the user
message, plus a single assistant entry holding the concatenation of the
deltas (the trailing assistant bubble is replaced in place, never
duplicated or reordered; the statement holds for every delta list, so in
particular for every prefix of the stream). -/
theorem deltas_concatenate_single_assistant (s : AppState) (deltas : List String)
    (h1 : trimString s.input ≠ "") (hl : s.loading = false) (he : hasCreate s = true)
    (hd : deltas ≠ []) (hne : concatPieces (deltas.map some) ≠ "") :
    (handleSend s (deltas.map some) StreamEnd.success).final.messages
      = s.messages ++ [userMsgOf s.input, assistantMsg (concatPieces (deltas.map some))] :=
  send_fresh_messages s (deltas.map some) h1 hl he (by simpa using hd) hne

/-- Witness for C2 at the spec scenario: input `"Hello"`, deltas `"Hi"`,
`" there"`, `"!"` end in a single assistant entry `"Hi there!"`. -/
theorem deltas_concatenate_single_assistant_witness :
    (handleSend readyIdleState (["Hi", " there", "!"].map some) StreamEnd.success).final.messages
      = readyIdleState.messages
        ++ [userMsgOf readyIdleState.input,
            assistantMsg (concatPieces (["Hi", " there", "!"].map some))]
    ∧ concatPieces (["Hi", " there", "!"].map some) = "Hi there!"
    ∧ userMsgOf readyIdleState.input = userMsgOf "Hello" := by
  refine ⟨deltas_concatenate_single_assistant readyIdleState ["Hi", " there", "!"]
    (by decide) (by decide) (by decide) (by decide) (by decide), by decide, by decide⟩

/-- Claim C3: a stream terminated by cancellation (`AbortError`) appends no
error message — the call's trace is the same as on natural completion —
and returns to Idle (`loading` false); any other failure appends exactly
one assistant error message carrying the failure text and also returns to
Idle. -/
theorem cancellation_clean_failure_visible (s : AppState)
    (chunks : List (Option String)) (m : String) :
    handleSend s chunks StreamEnd.abortError = handleSend s chunks StreamEnd.success
    ∧ (trimString s.input ≠ "" → s.loading = false → hasCreate s = true →
        (handleSend s chunks StreamEnd.abortError).final.loading = false
        ∧ (handleSend s chunks (StreamEnd.failure m)).final.messages
            = (handleSend s chunks StreamEnd.success).final.messages
              ++ [assistantMsg (errorContent m)]
        ∧ (handleSend s chunks (StreamEnd.failure m)).final.loading = false) := by
  constructor
  · simp only [handleSend]
    split
    · rfl
    · split
      · rfl
      · rfl
  · intro h1 hl he
    rw [handleSend_run s chunks StreamEnd.abortError h1 hl he,
      handleSend_run s chunks (StreamEnd.failure m) h1 hl he,
      handleSend_run s chunks StreamEnd.success h1 hl he]
    exact ⟨rfl, by simp [applyOutcome, assistantMsg], rfl⟩

/-- Witness for C3 at a concrete generation from `readyIdleState`. -/
theorem cancellation_clean_failure_visible_witness :
    handleSend readyIdleState [some "Hi"] StreamEnd.abortError
      = handleSend readyIdleState [some "Hi"] StreamEnd.success
    ∧ (handleSend readyIdleState [some "Hi"] StreamEnd.abortError).final.loading = false
    ∧ (handleSend readyIdleState [some "Hi"] (StreamEnd.failure "boom")).final.messages
        = (handleSend readyIdleState [some "Hi"] StreamEnd.success).final.messages
          ++ [assistantMsg (errorContent "boom")] := by
  have h := cancellation_clean_failure_visible readyIdleState [some "Hi"] "boom"
  have h2 := h.2 (by decide) (by decide) (by decide)
  exact ⟨h.1, h2.1, h2.2.1⟩

/-- Claim C4: from a not-yet-ready state, the ready flag after any report
sequence is true exactly when some report carried completion fraction 1
(so it turns true precisely at the first such report — the statement holds
for every report list, hence for every prefix of the sequence), it never
reverts once true, and the status text is the effective text of the latest
report. -/
theorem ready_flag_transition (s : AppState) (rs : List Report)
    (h : s.modelLoaded = false) :
    ((runInit s rs).modelLoaded = rs.any fun r => r.progress = some 1)
    ∧ (∀ ext : List Report, (runInit s rs).modelLoaded = true →
        (runInit s (rs ++ ext)).modelLoaded = true)
    ∧ ∀ r, rs.getLast? = some r →
        (runInit s rs).initStatus = (if r.text = "" then "Loading..." else r.text) := by
  refine ⟨?_, ?_, ?_⟩
  · rw [runInit_loaded, h]
    simp
  · intro ext hload
    have happ : runInit s (rs ++ ext) = runInit (runInit s rs) ext := by
      simp [runInit, List.foldl_append]
    rw [happ, runInit_loaded, hload]
    simp
  · intro r hr
    exact runInit_status rs s r hr

/-- Witness for C4 at the spec scenario: fractions 0, 1/2, 1 — ready only
after the last report, status showing the latest text before that. -/
theorem ready_flag_transition_witness :
    (runInit initialAppState demoReports).modelLoaded = true
    ∧ (runInit initialAppState (demoReports.take 2)).modelLoaded = false
    ∧ (runInit initialAppState (demoReports.take 2)).initStatus = "halfway" := by
  have h1 := (ready_flag_transition initialAppState demoReports rfl).1
  have h2 := (ready_flag_transition initialAppState (demoReports.take 2) rfl).1
  have h3 := (ready_flag_transition initialAppState (demoReports.take 2) rfl).2.2
    { text := "halfway", progress := some (1/2) } rfl
  refine ⟨?_, ?_, ?_⟩
  · rw [h1]
    norm_num [demoReports]
  · rw [h2]
    norm_num [demoReports]
  · rw [h3]
    decide

/-- Claim C5: when the engine lacks `chat.completions.create`, a send with
non-blank input appends exactly one assistant unavailability message,
issues no stream call (the trace's request is `none`), and is non-fatal: a
later send from the resulting state retries the check and behaves the same
way. -/
theorem capability_missing_message (s : AppState) (chunks : List (Option String))
    (outcome : StreamEnd) (h1 : trimString s.input ≠ "") (hl : s.loading = false)
    (hE : s.engine.isSome = true) (he : hasCreate s = false) :
    (handleSend s chunks outcome).final.messages = s.messages ++ [chatUnavailableMsg]
    ∧ (handleSend s chunks outcome).request = none
    ∧ ∀ (chunks2 : List (Option String)) (outcome2 : StreamEnd),
        (handleSend (handleSend s chunks outcome).final chunks2 outcome2).final.messages
          = (handleSend s chunks outcome).final.messages ++ [chatUnavailableMsg]
        ∧ (handleSend (handleSend s chunks outcome).final chunks2 outcome2).request
            = none := by
  rw [handleSend_noCap s chunks outcome h1 hl hE he]
  refine ⟨rfl, rfl, ?_⟩
  intro chunks2 outcome2
  have h1' : trimString ({ s with messages := s.messages ++ [chatUnavailableMsg] } : AppState).input ≠ "" := h1
  have hl' : ({ s with messages := s.messages ++ [chatUnavailableMsg] } : AppState).loading = false := hl
  have hE' : ({ s with messages := s.messages ++ [chatUnavailableMsg] } : AppState).engine.isSome = true := hE
  have he' : hasCreate { s with messages := s.messages ++ [chatUnavailableMsg] } = false := he
  rw [handleSend_noCap _ chunks2 outcome2 h1' hl' hE' he']
  exact ⟨rfl, rfl⟩

/-- Witness for C5 at `noCapState`. -/
theorem capability_missing_message_witness :
    (handleSend noCapState [some "Hi"] StreamEnd.success).final.messages
      = noCapState.messages ++ [chatUnavailableMsg]
    ∧ (handleSend noCapState [some "Hi"] StreamEnd.success).request = none
    ∧ (handleSend (handleSend noCapState [some "Hi"] StreamEnd.success).final
        [some "Hi"] StreamEnd.success).final.messages
        = (handleSend noCapState [some "Hi"] StreamEnd.success).final.messages
          ++ [chatUnavailableMsg] := by
  have h := capability_missing_message noCapState [some "Hi"] StreamEnd.success
    (by decide) (by decide) (by decide) (by decide)
  exact ⟨h.1, h.2.1, (h.2.2 [some "Hi"] StreamEnd.success).1⟩

/-- Claim C6: the streamed completion request is the full transcript
history with exactly the placeholder typing sentinels removed, followed by
the new user message; every non-sentinel history entry is kept. -/
theorem request_seeded_without_typing_sentinel (s : AppState)
    (chunks : List (Option String)) (outcome : StreamEnd)
    (h1 : trimString s.input ≠ "") (hl : s.loading = false) (he : hasCreate s = true) :
    (handleSend s chunks outcome).request
      = some ((s.messages.filter fun m => !isTypingSentinel m) ++ [userMsgOf s.input])
    ∧ ∀ m ∈ s.messages, isTypingSentinel m = false →
        m ∈ s.messages.filter fun m => !isTypingSentinel m := by
  constructor
  · rw [handleSend_run s chunks outcome h1 hl he]
    have hkeep : keepInRequest = fun m => !isTypingSentinel m := by
      funext m
      simp [keepInRequest, isTypingSentinel]
    simp [currentMessagesOf, hkeep]
  · intro m hm hts
    exact List.mem_filter.mpr ⟨hm, by simp [hts]⟩

/-- Witness for C6: a history holding a typing sentinel loses exactly that
entry in the issued request. -/
theorem request_seeded_without_typing_sentinel_witness :
    (handleSend
        { readyIdleState with
          messages := initialMessages ++ [assistantMsg "Typing..."] }
        [some "Hi"] StreamEnd.success).request
      = some (((initialMessages ++ [assistantMsg "Typing..."]).filter
          fun m => !isTypingSentinel m) ++ [userMsgOf "Hello"])
    ∧ ((initialMessages ++ [assistantMsg "Typing..."]).filter
        fun m => !isTypingSentinel m) = initialMessages := by
  have h := (request_seeded_without_typing_sentinel
    { readyIdleState with messages := initialMessages ++ [assistantMsg "Typing..."] }
    [some "Hi"] StreamEnd.success (by decide) (by decide) (by decide)).1
  exact ⟨h, by decide⟩

/-- Claim C7: for a non-blank input sent while the engine is present with
the chat capability and the controller Idle, the state at the moment the
request is issued has gained exactly one message over the prior
transcript, a user message holding the input. -/
theorem user_message_before_request (s : AppState) (chunks : List (Option String))
    (outcome : StreamEnd) (h1 : trimString s.input ≠ "") (hl : s.loading = false)
    (he : hasCreate s = true) :
    (handleSend s chunks outcome).stateAtIssue = some (startGeneration s)
    ∧ (startGeneration s).messages = s.messages ++ [userMsgOf s.input]
    ∧ (userMsgOf s.input).role = Role.user := by
  rw [handleSend_run s chunks outcome h1 hl he]
  exact ⟨rfl, startGeneration_messages s, rfl⟩

/-- Witness for C7 at `readyIdleState`. -/
theorem user_message_before_request_witness :
    (handleSend readyIdleState [some "Hi"] StreamEnd.success).stateAtIssue
      = some (startGeneration readyIdleState)
    ∧ (startGeneration readyIdleState).messages
        = readyIdleState.messages ++ [userMsgOf readyIdleState.input] := by
  have h := user_message_before_request readyIdleState [some "Hi"] StreamEnd.success
    (by decide) (by decide) (by decide)
  exact ⟨h.1, h.2.1⟩

/-- Claim C8: calling `handleCancel` when no generation is active
(`loading` false) leaves the transcript, the loading flag, the status
text, the input and the engine unchanged. -/
theorem cancel_idle_noop (s : AppState) (h : s.loading = false) :
    (handleCancel s).messages = s.messages
    ∧ (handleCancel s).loading = false
    ∧ (handleCancel s).initStatus = s.initStatus
    ∧ (handleCancel s).input = s.input
    ∧ (handleCancel s).engine = s.engine
    ∧ (handleCancel s).modelLoaded = s.modelLoaded := by
  cases hA : s.abortRef <;> simp [handleCancel, hA, h]

/-- Witness for C8 at an Idle state still holding a stale controller. -/
theorem cancel_idle_noop_witness :
    (handleCancel staleCtlState).messages = staleCtlState.messages
    ∧ (handleCancel staleCtlState).loading = false
    ∧ (handleCancel staleCtlState).initStatus = staleCtlState.initStatus
    ∧ (handleCancel staleCtlState).input = staleCtlState.input := by
  have h := cancel_idle_noop staleCtlState (by decide)
  exact ⟨h.1, h.2.1, h.2.2.1, h.2.2.2.1⟩

/-- Claim C10: on the capability-missing path everything except the
appended unavailability message is left unchanged — the final state is the
prior state with only that assistant message appended, so the user message
is not appended (the user-message count is unchanged), the input field
keeps its text, and the controller never enters Generating. -/
theorem capability_missing_frame (s : AppState) (chunks : List (Option String))
    (outcome : StreamEnd) (h1 : trimString s.input ≠ "") (hl : s.loading = false)
    (hE : s.engine.isSome = true) (he : hasCreate s = false) :
    (handleSend s chunks outcome).final
        = { s with messages := s.messages ++ [chatUnavailableMsg] }
    ∧ (handleSend s chunks outcome).final.input = s.input
    ∧ (handleSend s chunks outcome).final.loading = false
    ∧ ((handleSend s chunks outcome).final.messages.countP
        fun m => m.role = Role.user)
        = s.messages.countP fun m => m.role = Role.user := by
  rw [handleSend_noCap s chunks outcome h1 hl hE he]
  refine ⟨rfl, rfl, hl, ?_⟩
  simp [List.countP_append, List.countP_cons, chatUnavailableMsg]

/-- Witness for C10 at `noCapState`. -/
theorem capability_missing_frame_witness :
    (handleSend noCapState [some "Hi"] StreamEnd.success).final
      = { noCapState with messages := noCapState.messages ++ [chatUnavailableMsg] }
    ∧ (handleSend noCapState [some "Hi"] StreamEnd.success).final.input = "Hello"
    ∧ (handleSend noCapState [some "Hi"] StreamEnd.success).final.loading = false := by
  have h := capability_missing_frame noCapState [some "Hi"] StreamEnd.success
    (by decide) (by decide) (by decide) (by decide)
  exact ⟨h.1, h.2.1, h.2.2.1⟩

theorem oneLeadingSystem_append (ms : List Msg) (m : Msg)
    (hm : m.role ≠ Role.system) (h : oneLeadingSystem ms) :
    oneLeadingSystem (ms ++ [m]) := by
  obtain ⟨c, rest, hEq, hR⟩ := h
  subst hEq
  refine ⟨c, rest ++ [m], rfl, ?_⟩
  intro x hx
  rcases List.mem_append.mp hx with hx | hx
  · exact hR x hx
  · rw [List.mem_singleton.mp hx]
    exact hm

theorem streamStep_replace_or_append (acc : String) (ms : List Msg)
    (c : Option String) :
    (lastIsAssistant ms = true ∧
      (streamStep (acc, ms) c).2
        = ms.dropLast
          ++ [assistantMsg (if c.getD "" = "" then acc else acc ++ c.getD "")])
    ∨ (lastIsAssistant ms = false ∧
      (streamStep (acc, ms) c).2
        = ms ++ [assistantMsg
            (if (if c.getD "" = "" then acc else acc ++ c.getD "") = ""
              then " "
              else if c.getD "" = "" then acc else acc ++ c.getD "")]) := by
  by_cases hL : lastIsAssistant ms
  · exact Or.inl ⟨hL, by simp [streamStep, hL, assistantMsg]⟩
  · have hL' : lastIsAssistant ms = false := by simpa using hL
    exact Or.inr ⟨hL', by simp [streamStep, hL', assistantMsg]⟩

/-- Claim C9: every transcript reachable through the operations of the
component begins with exactly one leading system message — the initial
transcript satisfies the invariant and the user append, the streaming
updater, the error append and the unavailability append all preserve it. -/
theorem reachable_one_leading_system (ms : List Msg)
    (h : ReachableTranscript ms) : oneLeadingSystem ms := by
  induction h with
  | start =>
    exact ⟨"You are a helpful AI assistant.", [], rfl, by simp⟩
  | userAppend ms t _ ih =>
    exact oneLeadingSystem_append ms _ (by simp) ih
  | deltaUpdate ms acc c _ ih =>
    rcases streamStep_replace_or_append acc ms c with ⟨hL, hstep⟩ | ⟨hL, hstep⟩
    · obtain ⟨cc, rest, hEq, hR⟩ := ih
      subst hEq
      cases rest with
      | nil => simp [lastIsAssistant] at hL
      | cons r t2 =>
        rw [hstep]
        refine ⟨cc, (r :: t2).dropLast
          ++ [assistantMsg (if c.getD "" = "" then acc else acc ++ c.getD "")],
          rfl, ?_⟩
        intro x hx
        rcases List.mem_append.mp hx with hx | hx
        · exact hR x ((List.dropLast_sublist (r :: t2)).subset hx)
        · rw [List.mem_singleton.mp hx]
          simp [assistantMsg]
    · rw [hstep]
      exact oneLeadingSystem_append ms _ (by simp [assistantMsg]) ih
  | errorAppend ms m _ ih =>
    exact oneLeadingSystem_append ms _ (by simp) ih
  | unavailableAppend ms _ ih =>
    exact oneLeadingSystem_append ms _ (by simp [chatUnavailableMsg]) ih

/-- Witness for C9: the invariant at a concretely reached transcript. -/
theorem reachable_one_leading_system_witness :
    oneLeadingSystem (initialMessages ++ [{ role := Role.user, content := "Hello" }]) :=
  reachable_one_leading_system _
    (ReachableTranscript.userAppend initialMessages "Hello" ReachableTranscript.start)

/-- Counterexample to C1 as stated: in `generatingState` — a generation in
progress (`loading` true), a live un-aborted prior controller, non-blank
input and the chat capability present — `handleSend` changes nothing: the
prior controller is not aborted, no request is issued and no fresh
generation starts; the new send is rejected, not abort-then-start. -/
theorem send_while_generating_cex :
    generatingState.loading = true
    ∧ trimString generatingState.input ≠ ""
    ∧ hasCreate generatingState = true
    ∧ generatingState.abortRef = some 0
    ∧ generatingState.ctls = [false]
    ∧ handleSend generatingState [some "x"] StreamEnd.success
        = { final := generatingState, request := none, stateAtIssue := none } := by
  refine ⟨rfl, by decide, rfl, rfl, rfl, ?_⟩
  exact handleSend_rejected generatingState [some "x"] StreamEnd.success rfl

/-- Claim C1 (amended): a send with non-blank input while a generation is
in progress (`loading` true) is rejected as a no-op — the prior stream is
not aborted and no fresh generation starts.  The abort-then-start
behaviour holds only from Idle (`loading` false): any prior stale
controller held by the ref is aborted, a fresh un-aborted controller is
installed, and the new generation's accumulator starts empty (the
resulting assistant entry holds exactly this call's deltas). -/
theorem send_single_flight (s : AppState) (chunks : List (Option String))
    (outcome : StreamEnd) :
    (s.loading = true →
      handleSend s chunks outcome
        = { final := s, request := none, stateAtIssue := none })
    ∧ (s.loading = false → trimString s.input ≠ "" → hasCreate s = true →
        (∀ i, s.abortRef = some i → i < s.ctls.length →
          (handleSend s chunks outcome).final.ctls.getD i false = true)
        ∧ (handleSend s chunks outcome).final.abortRef = some s.ctls.length
        ∧ (handleSend s chunks outcome).final.ctls.getD s.ctls.length false = false
        ∧ ∀ deltas : List String, deltas ≠ [] →
            concatPieces (deltas.map some) ≠ "" →
            (handleSend s (deltas.map some) StreamEnd.success).final.messages
              = s.messages ++ [userMsgOf s.input,
                  assistantMsg (concatPieces (deltas.map some))]) := by
  constructor
  · intro hl
    exact handleSend_rejected s chunks outcome hl
  · intro hl h1 he
    have hctls : (handleSend s chunks outcome).final.ctls
        = (startGeneration s).ctls := by
      rw [handleSend_run s chunks outcome h1 hl he]
      simp [applyOutcome_ctls]
    have habort : (handleSend s chunks outcome).final.abortRef
        = (startGeneration s).abortRef := by
      rw [handleSend_run s chunks outcome h1 hl he]
      simp [applyOutcome_abortRef]
    refine ⟨?_, ?_, ?_, ?_⟩
    · intro i hi hlen
      rw [hctls, startGeneration_ctls, hi]
      have hlen' : i < (s.ctls.set i true).length := by
        rw [List.length_set]
        exact hlen
      simp [List.getD, List.getElem?_append, hlen', List.getElem?_set_self, hlen]
    · rw [habort, startGeneration_abortRef]
    · rw [hctls, startGeneration_ctls]
      cases hA : s.abortRef with
      | none =>
        simp [List.getD, List.getElem?_concat_length]
      | some i =>
        have hL : s.ctls.length = (s.ctls.set i true).length :=
          (List.length_set s.ctls i true).symm
        simp only [List.getD, List.get?_eq_getElem?]
        rw [hL, List.getElem?_concat_length]
        rfl
    · intro deltas hd hne
      exact send_fresh_messages s (deltas.map some) h1 hl he (by simpa using hd) hne

/-- Witness for the amended C1: rejection at `generatingState`, and
abort-then-start with a fresh accumulator at `staleCtlState`. -/
theorem send_single_flight_witness :
    handleSend generatingState [some "x"] StreamEnd.success
      = { final := generatingState, request := none, stateAtIssue := none }
    ∧ (handleSend staleCtlState (["Hi"].map some) StreamEnd.success).final.ctls.getD 0 false
        = true
    ∧ (handleSend staleCtlState (["Hi"].map some) StreamEnd.success).final.abortRef
        = some staleCtlState.ctls.length
    ∧ (handleSend staleCtlState (["Hi"].map some) StreamEnd.success).final.messages
        = staleCtlState.messages
          ++ [userMsgOf staleCtlState.input,
              assistantMsg (concatPieces (["Hi"].map some))] := by
  have hgen := (send_single_flight generatingState [some "x"] StreamEnd.success).1 rfl
  have hstale := (send_single_flight staleCtlState (["Hi"].map some)
    StreamEnd.success).2 rfl (by decide) rfl
  exact ⟨hgen, hstale.1 0 rfl (by decide), hstale.2.1,
    hstale.2.2.2 ["Hi"] (by decide) (by decide)⟩
